import Mathlib

/-!
Verification of the Frustratometer energy/frustration engine.

The Python source is embedded shallowly:
* sequences of one-letter amino-acid codes become `List Char`;
* the 21-letter alphabet lookup (`str.find`, returning -1 on failure) and
  numpy's negative-index resolution are modelled explicitly;
* the Potts model tensors `h` and `J` become rational-valued functions with an
  explicit dimension `L`;
* numpy elementwise products and `.sum()` calls become list maps and sums over
  `List.range`;
* fallible numpy indexing becomes `Option`-returning wrappers;
* the caching methods of the `Frustratometer` class become explicit state
  transitions on the cached value.

Energies are computed over `ℚ` (exact arithmetic in place of float64); the
frustration z-score, which needs a square root, is computed over `ℝ`.
-/

/-- The 21-symbol alphabet `-ACDEFGHIKLMNPQRSTVWY` used throughout the source
(`AA = '-ACDEFGHIKLMNPQRSTVWY'`): gap first, then the 20 amino acids. -/
def AAlist : List Char :=
  ['-', 'A', 'C', 'D', 'E', 'F', 'G', 'H', 'I', 'K', 'L',
   'M', 'N', 'P', 'Q', 'R', 'S', 'T', 'V', 'W', 'Y']

/-- Python `str.find` scanning helper: index of the first occurrence of `c`
starting at offset `k`, and `-1` when `c` does not occur. -/
def findIndexAux : List Char → Char → ℕ → ℤ
  | [], _, _ => -1
  | a :: rest, c, k => if a = c then (k : ℤ) else findIndexAux rest c (k + 1)

/-- `AA.find(aa)` from the source: position of `aa` in the alphabet, `-1` if
absent. -/
def pyFind (c : Char) : ℤ := findIndexAux AAlist c 0

/-- numpy index resolution on an axis of size `m`: indices in `[0, m)` are kept,
indices in `[-m, 0)` are shifted by `m`, anything else is an IndexError. -/
def resolveIndex (m : ℕ) (i : ℤ) : Option ℕ :=
  if 0 ≤ i ∧ i < (m : ℤ) then some i.toNat
  else if -(m : ℤ) ≤ i ∧ i < 0 then some ((m : ℤ) + i).toNat
  else none

/-- The alphabet index actually read by the numpy tensor lookups: the found
index when the character is in the alphabet, and 20 (the last symbol) when
`str.find` returned `-1` and numpy resolved it as a negative index. -/
def yIndex (c : Char) : ℕ := if pyFind c < 0 then 20 else (pyFind c).toNat

/-- A Potts model: dimension `L`, fields `h` (shape `L × 21`) and couplings `J`
(shape `L × L × 21 × 21`), as loaded from the model file. -/
structure PottsModel where
  L : ℕ
  h : ℕ → ℕ → ℚ
  J : ℕ → ℕ → ℕ → ℕ → ℚ

/-- The interaction mask built in `compute_native_energy` and
`compute_singleresidue_decoy_energy`: starts as all ones, multiplied by
`sequence_distance > sequence_distance_cutoff` when that cutoff is given, and
by `distance_matrix <= distance_cutoff` when that cutoff is given. -/
def dcaMask (distM : ℕ → ℕ → ℚ) (dcut : Option ℚ) (scut : Option ℤ)
    (i j : ℕ) : ℚ :=
  (match scut with
   | none => 1
   | some c => if c < |(i : ℤ) - (j : ℤ)| then 1 else 0) *
  (match dcut with
   | none => 1
   | some dc => if distM i j ≤ dc then 1 else 0)

/-- Lines 94–104 of `dca_frustratometer.py` after index resolution:
`h = -h[range(n), seq]`, `j = -J[range(n), :, seq, :][:, range(n), seq]`,
`j_prime = j * mask`, `energy = h.sum() + j_prime.sum() / 2`. -/
def nativeEnergyCore (pm : PottsModel) (s : ℕ → ℕ) (n : ℕ)
    (mask : ℕ → ℕ → ℚ) : ℚ :=
  ((List.range n).map fun i => -(pm.h i (s i))).sum +
    ((List.range n).map fun i =>
      ((List.range n).map fun j =>
        (-(pm.J i j (s i) (s j))) * mask i j).sum).sum / 2

/-- Lines 120–137 of `dca_frustratometer.py`: the energy of the decoy obtained
by substituting symbol `a` at position `i`.  The decoy sequence is
`decoys[i,a,k] = if k = i then a else s k` and
`h_decoy[i,a,k] = -h[k, decoys[i,a,k]]`.  The chained advanced indexing
`J[seq_pos, :, decoys, :][mut_pos, mut_aa, :, seq_pos, decoys]` (advanced
indices separated by a slice, so the broadcast axes come first) yields
`j_decoy[i,a,k,m] = -J[m, k, decoys[i,a,m], decoys[i,a,k]]`, which the
`(L,L)` mask then multiplies on its trailing axes as `mask[k,m]` — i.e. the
coupling `J[m,k,·,·]` is paired with the *transposed* mask entry.  Finally
`decoy_energy = h_decoy.sum(-1) + (j_decoy * mask).sum(-1).sum(-1) / 2`. -/
def decoyEnergyCore (pm : PottsModel) (s : ℕ → ℕ) (n : ℕ)
    (mask : ℕ → ℕ → ℚ) (i a : ℕ) : ℚ :=
  ((List.range n).map fun k => -(pm.h k (if k = i then a else s k))).sum +
    ((List.range n).map fun k =>
      ((List.range n).map fun m =>
        (-(pm.J m k (if m = i then a else s m) (if k = i then a else s k))) *
          mask k m).sum).sum / 2

/-- The full `L × 21` single-residue decoy energy matrix returned by
`compute_singleresidue_decoy_energy`. -/
def singleresidueDecoyMatrix (pm : PottsModel) (s : ℕ → ℕ) (n : ℕ)
    (mask : ℕ → ℕ → ℚ) : List (List ℚ) :=
  (List.range n).map fun i => (List.range 21).map fun a =>
    decoyEnergyCore pm s n mask i a

/-- Resolution of a whole index vector: `some` of the resolved indices, or
`none` as soon as one entry would raise an IndexError. -/
def seqResolve : List ℤ → Option (List ℕ)
  | [] => some []
  | i :: rest =>
    match resolveIndex 21 i, seqResolve rest with
    | some a, some as => some (a :: as)
    | _, _ => none

/-- numpy broadcasting of the `(distL,distL)` distance matrix against the
`(n,n)` mask: a `(1,1)` matrix is stretched, so its single entry `d[0,0]` is
read at every position; otherwise the matrix is read pointwise. -/
def broadcastDistM (distL : ℕ) (distM : ℕ → ℕ → ℚ) : ℕ → ℕ → ℚ :=
  if distL = 1 then fun _ _ => distM 0 0 else distM

/-- `compute_native_energy` of `dca_frustratometer.py` (lines 82–105): map the
sequence through `AA.find`, resolve the indices through numpy indexing, check
the constraints numpy and scipy enforce, then return the energy.  `none`
models a raised exception.  The error paths are: an empty sequence makes
`np.array([...])` a float64 array and fancy indexing with a non-integer array
raises IndexError; a sequence longer than `L` raises IndexError at the row
index range; and when a distance cutoff is set, the in-place
`mask *= distance_matrix <= cutoff` requires the `(distL,distL)` operand to
broadcast *to* the `(n,n)` mask, i.e. `distL = n` or `distL = 1` (a `(1,1)`
matrix is stretched, its entry read everywhere).  The sequence-separation
line succeeds for every `n ≥ 1` (`squareform` of the empty condensed vector
of a single point returns a `(1,1)` zero matrix). -/
def computeNativeEnergy (pm : PottsModel) (distL : ℕ) (distM : ℕ → ℕ → ℚ)
    (dcut : Option ℚ) (scut : Option ℤ) (seq : List Char) : Option ℚ :=
  match seqResolve (seq.map pyFind) with
  | none => none
  | some r =>
    if 1 ≤ (seq.map pyFind).length ∧ (seq.map pyFind).length ≤ pm.L ∧
        (dcut = none ∨ distL = (seq.map pyFind).length ∨ distL = 1) then
      some (nativeEnergyCore pm (fun k => r.getD k 0) (seq.map pyFind).length
        (dcaMask (broadcastDistM distL distM) dcut scut))
    else none

/-- `compute_singleresidue_decoy_energy` of `dca_frustratometer.py`
(lines 108–138), with the same error paths as the native energy (the `decoys`
array inherits the float64 dtype of an empty `seq_index`, so the empty
sequence raises there too). -/
def computeSingleresidueDecoyEnergy (pm : PottsModel) (distL : ℕ)
    (distM : ℕ → ℕ → ℚ) (dcut : Option ℚ) (scut : Option ℤ)
    (seq : List Char) : Option (List (List ℚ)) :=
  match seqResolve (seq.map pyFind) with
  | none => none
  | some r =>
    if 1 ≤ (seq.map pyFind).length ∧ (seq.map pyFind).length ≤ pm.L ∧
        (dcut = none ∨ distL = (seq.map pyFind).length ∨ distL = 1) then
      some (singleresidueDecoyMatrix pm (fun k => r.getD k 0)
        (seq.map pyFind).length (dcaMask (broadcastDistM distL distM) dcut scut))
    else none

/-- Replacement of every character outside the 21-letter alphabet by the last
symbol `Y` (what the numpy indexing effectively reads). -/
def substY (c : Char) : Char := if c ∈ AAlist then c else 'Y'

/-- The resolved index sequence of a character list, read as a total function
(positions past the end read 0). -/
def seqFun (seq : List Char) : ℕ → ℕ := fun k => (seq.map yIndex).getD k 0

/-- Modelled from the spec: `compute_fields_energy` lives in
`frustratometer/frustration/frustration.py`, which is not under `src/` (only
its `__init__.py` export list and its callers in `Frustratometer.py` are).
Per the spec, the fields energy is `Σ_i h_i` over the negated field values,
with the contribution of gap positions (symbol index 0) zeroed when
`ignore_fields_of_gaps` is set. -/
def specFieldsEnergy (pm : PottsModel) (s : ℕ → ℕ) (n : ℕ) (ifg : Bool) : ℚ :=
  ∑ i in Finset.range n,
    if ifg = true ∧ s i = 0 then 0 else -(pm.h i (s i))

/-- Modelled from the spec: `compute_couplings_energy` of the missing
`frustratometer/frustration/frustration.py` module.  Per the spec, the
couplings energy is `(1/2) Σ_{i,j} J_{ij} mask_{ij}` over the negated coupling
values, with a pair's contribution zeroed when either partner is a gap and
`ignore_couplings_of_gaps` is set. -/
def specCouplingsEnergy (pm : PottsModel) (s : ℕ → ℕ) (n : ℕ)
    (mask : ℕ → ℕ → ℚ) (icg : Bool) : ℚ :=
  (1 / 2) * ∑ i in Finset.range n, ∑ j in Finset.range n,
    if icg = true ∧ (s i = 0 ∨ s j = 0) then 0
    else (-(pm.J i j (s i) (s j))) * mask i j

/-- Modelled from the spec: `compute_native_energy` of the missing
`frustratometer/frustration/frustration.py` module.  Per the spec,
`E = Σ_i h_i + (1/2) Σ_{i,j} J_{ij} mask_{ij}` over negated model values,
with gap contributions zeroed before summation according to the two
gap-handling flags. -/
def specNativeEnergy (pm : PottsModel) (s : ℕ → ℕ) (n : ℕ)
    (mask : ℕ → ℕ → ℚ) (icg ifg : Bool) : ℚ :=
  (∑ i in Finset.range n,
    if ifg = true ∧ s i = 0 then 0 else -(pm.h i (s i))) +
  (1 / 2) * ∑ i in Finset.range n, ∑ j in Finset.range n,
    if icg = true ∧ (s i = 0 ∨ s j = 0) then 0
    else (-(pm.J i j (s i) (s j))) * mask i j

/-- Line 147 of `dca_frustratometer.py`:
`mean_energy = (aa_freq * decoy_energy).sum(axis=1) / aa_freq.sum()`. -/
noncomputable def mean_energy (aa_freq : ℕ → ℝ) (decoy_energy : ℕ → ℕ → ℝ)
    (i : ℕ) : ℝ :=
  (∑ a in Finset.range 21, aa_freq a * decoy_energy i a) /
    (∑ a in Finset.range 21, aa_freq a)

/-- Line 148 of `dca_frustratometer.py`: `std_energy = sqrt(((aa_freq *
(decoy_energy - mean_energy)**2) / aa_freq.sum()).sum(axis=1))` — each term is
divided by the weight total and the quotients are then summed. -/
noncomputable def std_energy (aa_freq : ℕ → ℝ) (decoy_energy : ℕ → ℕ → ℝ)
    (i : ℕ) : ℝ :=
  Real.sqrt (∑ a in Finset.range 21,
    (aa_freq a * (decoy_energy i a - mean_energy aa_freq decoy_energy i) ^ 2) /
      (∑ b in Finset.range 21, aa_freq b))

/-- `compute_singleresidue_frustration` of `dca_frustratometer.py`
(lines 144–150): the default weight vector is `np.ones(21)`, and the result is
`(native_energy - mean_energy) / std_energy`, with no guard on the
denominator. -/
noncomputable def compute_singleresidue_frustration (decoy_energy : ℕ → ℕ → ℝ)
    (native : ℝ) (aa_freq : Option (ℕ → ℝ)) (i : ℕ) : ℝ :=
  (native - mean_energy (aa_freq.getD fun _ => 1) decoy_energy i) /
    std_energy (aa_freq.getD fun _ => 1) decoy_energy i

/-- The spec's weight-vector-weighted mean of a 21-entry value vector. -/
noncomputable def wMean (w x : ℕ → ℝ) : ℝ :=
  (∑ a in Finset.range 21, w a * x a) / (∑ a in Finset.range 21, w a)

/-- The spec's weight-vector-weighted standard deviation of a 21-entry value
vector: the square root of the weighted mean squared deviation. -/
noncomputable def wStd (w x : ℕ → ℝ) : ℝ :=
  Real.sqrt ((∑ a in Finset.range 21, w a * (x a - wMean w x) ^ 2) /
    (∑ a in Finset.range 21, w a))

namespace Frustratometer

/-- `Frustratometer.decoy_fluctuation` (lines 145–180 of `Frustratometer.py`),
for the `singleresidue` kind, as a state transition on the cache entry
`self._decoy_fluctuation['singleresidue']`.  The computation dispatched to the
`frustration` module is abstracted as `compute`.  Faithful to the source: the
cache is consulted only when no explicit sequence is passed (and then before
the mask argument is even looked at); every computed tensor is stored under
the kind key alone. -/
def decoy_fluctuation {σ μ τ : Type} (compute : σ → μ → τ) (selfSequence : σ)
    (selfMask : μ) (cache : Option τ) (sequence : Option σ) (mask : Option μ) :
    τ × Option τ :=
  match sequence with
  | none =>
    match cache with
    | some t => (t, some t)
    | none =>
      let m := mask.getD selfMask
      let f := compute selfSequence m
      (f, some f)
  | some s =>
    let m := mask.getD selfMask
    let f := compute s m
    (f, some f)

/-- `Frustratometer.native_energy` (lines 44–68 of `Frustratometer.py`) as a
state transition on the cache `self._native_energy`.  Faithful to the source:
an explicit sequence bypasses the cache entirely; otherwise the cached value is
recomputed only when it is absent or falsy (`0`), *ignoring the flags* of the
current call. -/
def native_energy {σ : Type} (computeE : σ → Bool → Bool → ℚ)
    (selfSequence : σ) (cache : Option ℚ) (sequence : Option σ)
    (icg ifg : Bool) : ℚ × Option ℚ :=
  match sequence with
  | some s => (computeE s icg ifg, cache)
  | none =>
    match cache with
    | some e =>
      if e = 0 then
        (computeE selfSequence icg ifg, some (computeE selfSequence icg ifg))
      else (e, some e)
    | none =>
      (computeE selfSequence icg ifg, some (computeE selfSequence icg ifg))

end Frustratometer

/-- Concrete two-position Potts model for the cache fixtures: zero fields and
couplings `J i j a b = 1` exactly when `a = b`. -/
def pmDiag : PottsModel := ⟨2, fun _ _ => 0, fun _ _ a b => if a = b then 1 else 0⟩

/-- The single-residue decoy-energy computation plugged into the
`decoy_fluctuation` state machine (the mask slot is unused by this fixture). -/
def computeDiag (s : List Char) : Unit → List (List ℚ) :=
  fun _ => singleresidueDecoyMatrix pmDiag (seqFun s) s.length (fun _ _ => 1)

/-- Concrete one-position Potts model for the flag-cache fixture: unit fields,
zero couplings. -/
def pmGap : PottsModel := ⟨1, fun _ _ => 1, fun _ _ _ _ => 0⟩

/-- The (spec-modelled) flag-aware native-energy computation plugged into the
`native_energy` state machine. -/
def computeGap (s : List Char) (icg ifg : Bool) : ℚ :=
  specNativeEnergy pmGap (seqFun s) s.length (fun _ _ => 0) icg ifg

/-- List-of-range sums agree with `Finset.range` sums. -/
lemma listSum_map_range (f : ℕ → ℚ) (n : ℕ) :
    ((List.range n).map f).sum = ∑ i in Finset.range n, f i := by
  induction n with
  | zero => simp
  | succ m ih =>
    rw [List.range_succ, List.map_append, List.sum_append,
      Finset.sum_range_succ, ih]
    simp

lemma findIndexAux_not_mem (l : List Char) (c : Char) :
    ∀ k : ℕ, c ∉ l → findIndexAux l c k = -1 := by
  induction l with
  | nil => intro k _; rfl
  | cons a rest ih =>
    intro k hc
    have ha : a ≠ c := fun h => hc (h ▸ List.mem_cons_self a rest)
    have hrest : c ∉ rest := fun h => hc (List.mem_cons_of_mem a h)
    simp only [findIndexAux, ha, if_false]
    exact ih (k + 1) hrest

lemma findIndexAux_mem_bounds (l : List Char) (c : Char) :
    ∀ k : ℕ, c ∈ l →
      (k : ℤ) ≤ findIndexAux l c k ∧
        findIndexAux l c k < (k : ℤ) + l.length := by
  induction l with
  | nil => intro k hc; exact absurd hc (List.not_mem_nil c)
  | cons a rest ih =>
    intro k hc
    by_cases ha : a = c
    · simp only [findIndexAux, ha, if_true]
      constructor
      · exact le_refl _
      · have : (0 : ℤ) < (rest.length : ℤ) + 1 := by positivity
        simp only [List.length_cons]
        push_cast
        linarith
    · have hrest : c ∈ rest := by
        rcases List.mem_cons.mp hc with h | h
        · exact absurd h.symm ha
        · exact h
      have hb := ih (k + 1) hrest
      simp only [findIndexAux, ha, if_false, List.length_cons]
      push_cast at hb ⊢
      constructor
      · linarith [hb.1]
      · linarith [hb.2]

/-- Every alphabet lookup resolves: an in-alphabet character to its index, and
an unknown character (lookup `-1`) to the last index 20. -/
lemma resolve_pyFind (c : Char) : resolveIndex 21 (pyFind c) = some (yIndex c) := by
  by_cases hc : c ∈ AAlist
  · have hb := findIndexAux_mem_bounds AAlist c 0 hc
    have hlen : (AAlist.length : ℤ) = 21 := by decide
    rw [hlen] at hb
    have h0 : (0 : ℤ) ≤ pyFind c := by simpa [pyFind] using hb.1
    have h21 : pyFind c < 21 := by
      have := hb.2
      simpa [pyFind] using this
    have hneg : ¬ pyFind c < 0 := not_lt.mpr h0
    simp [resolveIndex, yIndex, h0, h21, hneg]
  · have h1 : pyFind c = -1 := findIndexAux_not_mem AAlist c 0 hc
    simp only [resolveIndex, yIndex, h1]
    decide

lemma seqResolve_map_pyFind (l : List Char) :
    seqResolve (l.map pyFind) = some (l.map yIndex) := by
  induction l with
  | nil => rfl
  | cons c rest ih =>
    simp only [List.map_cons, seqResolve, resolve_pyFind c, ih]

lemma computeNativeEnergy_eq (pm : PottsModel) (distL : ℕ)
    (distM : ℕ → ℕ → ℚ) (dcut : Option ℚ) (scut : Option ℤ)
    (seq : List Char) :
    computeNativeEnergy pm distL distM dcut scut seq =
      if 1 ≤ seq.length ∧ seq.length ≤ pm.L ∧
          (dcut = none ∨ distL = seq.length ∨ distL = 1) then
        some (nativeEnergyCore pm (fun k => (seq.map yIndex).getD k 0)
          seq.length (dcaMask (broadcastDistM distL distM) dcut scut))
      else none := by
  unfold computeNativeEnergy
  rw [seqResolve_map_pyFind]
  simp [List.length_map]

lemma computeSingleresidueDecoyEnergy_eq (pm : PottsModel) (distL : ℕ)
    (distM : ℕ → ℕ → ℚ) (dcut : Option ℚ) (scut : Option ℤ)
    (seq : List Char) :
    computeSingleresidueDecoyEnergy pm distL distM dcut scut seq =
      if 1 ≤ seq.length ∧ seq.length ≤ pm.L ∧
          (dcut = none ∨ distL = seq.length ∨ distL = 1) then
        some (singleresidueDecoyMatrix pm (fun k => (seq.map yIndex).getD k 0)
          seq.length (dcaMask (broadcastDistM distL distM) dcut scut))
      else none := by
  unfold computeSingleresidueDecoyEnergy
  rw [seqResolve_map_pyFind]
  simp [List.length_map]

lemma yIndex_substY (c : Char) : yIndex (substY c) = yIndex c := by
  by_cases hc : c ∈ AAlist
  · simp [substY, hc]
  · have h1 : pyFind c = -1 := findIndexAux_not_mem AAlist c 0 hc
    have h2 : yIndex c = 20 := by simp [yIndex, h1]
    have h3 : substY c = 'Y' := by simp [substY, hc]
    rw [h3, h2]
    decide

lemma map_yIndex_substY (seq : List Char) :
    (seq.map substY).map yIndex = seq.map yIndex := by
  rw [List.map_map]
  have h : yIndex ∘ substY = yIndex := funext yIndex_substY
  rw [h]

/-- Reading entry `i` of a mapped range with `getD` gives the generating
function at `i`. -/
lemma getD_map_range {α : Type} (f : ℕ → α) (d : α) (n i : ℕ) (h : i < n) :
    ((List.range n).map f).getD i d = f i := by
  have hlen : i < ((List.range n).map f).length := by
    simpa using h
  rw [List.getD_eq_getElem _ _ hlen]
  simp

/-- The code's standard deviation (termwise division before summation) equals
the spec's weighted standard deviation. -/
lemma std_energy_eq_wStd (w : ℕ → ℝ) (dE : ℕ → ℕ → ℝ) (i : ℕ) :
    std_energy w dE i = wStd w (dE i) := by
  unfold std_energy wStd mean_energy wMean
  rw [Finset.sum_div, Finset.sum_div]

/-- Uniform weighted mean: the code's default all-ones weights give the same
weighted mean as the spec's uniform distribution over the 21 symbols. -/
lemma wMean_ones_eq_unif (x : ℕ → ℝ) :
    wMean (fun _ => 1) x = wMean (fun _ => 1 / 21) x := by
  unfold wMean
  simp only [one_mul]
  rw [show (∑ _a in Finset.range 21, (1 : ℝ)) = 21 from by
        norm_num [Finset.sum_const, Finset.card_range],
      show (∑ _a in Finset.range 21, ((1 : ℝ) / 21)) = 1 from by
        norm_num [Finset.sum_const, Finset.card_range],
      ← Finset.mul_sum]
  ring

/-- Uniform weighted standard deviation: all-ones weights and uniform weights
agree. -/
lemma wStd_ones_eq_unif (x : ℕ → ℝ) :
    wStd (fun _ => 1) x = wStd (fun _ => 1 / 21) x := by
  unfold wStd
  rw [wMean_ones_eq_unif]
  simp only [one_mul]
  rw [show (∑ _a in Finset.range 21, (1 : ℝ)) = 21 from by
        norm_num [Finset.sum_const, Finset.card_range],
      show (∑ _a in Finset.range 21, ((1 : ℝ) / 21)) = 1 from by
        norm_num [Finset.sum_const, Finset.card_range],
      ← Finset.mul_sum]
  congr 1
  ring

/-- Claim C1: for every sequence (as resolved indices), Potts model and mask,
the native energy computed by the source equals the field sum plus half the
masked coupling sum with the model values negated:
`E = Σ_i (-h[i, s i]) + (1/2) · Σ_{i,j} (-J[i, j, s i, s j]) · mask[i, j]`. -/
theorem c1_native_energy_formula (pm : PottsModel) (s : ℕ → ℕ) (n : ℕ)
    (mask : ℕ → ℕ → ℚ) :
    nativeEnergyCore pm s n mask =
      (∑ i in Finset.range n, -(pm.h i (s i))) +
        (1 / 2) * ∑ i in Finset.range n, ∑ j in Finset.range n,
          (-(pm.J i j (s i) (s j))) * mask i j := by
  simp only [nativeEnergyCore, listSum_map_range]
  ring

/-- Claim C2 counterexample: the self-substitution decoy energy does *not*
equal the native energy for every mask, because the decoy computation pairs
the coupling `J[m,k,·,·]` with the transposed mask entry `mask[k,m]` while the
native computation pairs `J[i,t,·,·]` with `mask[i,t]`.  With zero fields,
`J[0,1,·,·] = 1` (else 0), the asymmetric mask the code itself builds from the
distance matrix `d(0,1)=1, d(1,0)=3` with cutoff 2 (`mask = [[1,1],[0,1]]`),
and the sequence `"AA"`, the native energy is `-1/2` but the decoy that
re-substitutes the native symbol at position 0 has energy `0`: the
self-substitution fluctuation is `1/2`, not zero. -/
theorem c2_asymmetric_mask_counterexample :
    decoyEnergyCore ⟨2, fun _ _ => 0, fun p q _ _ => if p = 0 ∧ q = 1 then 1 else 0⟩
        (fun _ => 1) 2
        (dcaMask (fun i j => if i = 0 ∧ j = 1 then (1 : ℚ)
          else if i = 1 ∧ j = 0 then 3 else 0) (some 2) none) 0 1 = 0 ∧
      nativeEnergyCore ⟨2, fun _ _ => 0, fun p q _ _ => if p = 0 ∧ q = 1 then 1 else 0⟩
        (fun _ => 1) 2
        (dcaMask (fun i j => if i = 0 ∧ j = 1 then (1 : ℚ)
          else if i = 1 ∧ j = 0 then 3 else 0) (some 2) none) = -(1 / 2) := by
  constructor <;>
    norm_num [decoyEnergyCore, nativeEnergyCore, dcaMask, List.range_succ]

/-- Claim C2 (amended): whenever the interaction mask is symmetric — as it is
for every mask the pipeline builds from a symmetric distance matrix — the
decoy that re-substitutes the native symbol at position `i` has exactly the
native energy (the self-substitution fluctuation is exactly zero); with an
asymmetric mask the two sums pair the couplings with transposed mask entries
and can differ. -/
theorem c2_self_substitution_symmetric (pm : PottsModel) (s : ℕ → ℕ) (n : ℕ)
    (mask : ℕ → ℕ → ℚ) (i : ℕ) (hsym : ∀ p q, mask p q = mask q p) :
    decoyEnergyCore pm s n mask i (s i) = nativeEnergyCore pm s n mask := by
  have hif : ∀ k, (if k = i then s i else s k) = s k := by
    intro k
    by_cases hk : k = i
    · subst hk; simp
    · simp [hk]
  have hsum : (∑ k in Finset.range n, ∑ m in Finset.range n,
      (-(pm.J m k (s m) (s k))) * mask k m) =
      ∑ p in Finset.range n, ∑ q in Finset.range n,
        (-(pm.J p q (s p) (s q))) * mask p q := by
    rw [Finset.sum_comm]
    refine Finset.sum_congr rfl fun p _ => Finset.sum_congr rfl fun q _ => ?_
    rw [hsym q p]
  simp only [decoyEnergyCore, nativeEnergyCore, hif, listSum_map_range, hsum]

/-- Witness for `c2_self_substitution_symmetric` at an all-ones mask. -/
theorem c2_self_substitution_witness :
    decoyEnergyCore ⟨1, fun _ _ => 0, fun _ _ _ _ => 0⟩ (fun _ => 1) 1
        (fun _ _ => 1) 0 1 =
      nativeEnergyCore ⟨1, fun _ _ => 0, fun _ _ _ _ => 0⟩ (fun _ => 1) 1
        (fun _ _ => 1) :=
  c2_self_substitution_symmetric ⟨1, fun _ _ => 0, fun _ _ _ _ => 0⟩
    (fun _ => 1) 1 (fun _ _ => 1) 0 (fun _ _ => rfl)

/-- Claim C3: for every sequence and every combination of the two gap-handling
flags, the fields energy plus the couplings energy equals the native energy
within tolerance `1e-6` (the difference is exactly zero in exact
arithmetic).  The three functions are modelled from the spec because the
`frustratometer.frustration` module is not under `src/`. -/
theorem c3_fields_plus_couplings (pm : PottsModel) (s : ℕ → ℕ) (n : ℕ)
    (mask : ℕ → ℕ → ℚ) (icg ifg : Bool) :
    |specFieldsEnergy pm s n ifg + specCouplingsEnergy pm s n mask icg -
      specNativeEnergy pm s n mask icg ifg| ≤ 1 / 1000000 := by
  have h : specFieldsEnergy pm s n ifg + specCouplingsEnergy pm s n mask icg -
      specNativeEnergy pm s n mask icg ifg = 0 := by
    unfold specFieldsEnergy specCouplingsEnergy specNativeEnergy
    ring
  rw [h, abs_zero]
  norm_num

/-- Claim C4: for every decoy-energy matrix, native energy and nonnegative
weight vector with positive total, the single-residue frustration index equals
`(native − weighted mean) / (weighted std)`; and with no weights supplied the
code's default `np.ones(21)` realizes exactly the uniform distribution over
the 21 symbols. -/
theorem c4_singleresidue_frustration_zscore (dE : ℕ → ℕ → ℝ) (E0 : ℝ)
    (w : ℕ → ℝ) (i : ℕ) (_hw : ∀ a, 0 ≤ w a)
    (_hpos : 0 < ∑ a in Finset.range 21, w a) :
    compute_singleresidue_frustration dE E0 (some w) i =
        (E0 - wMean w (dE i)) / wStd w (dE i) ∧
      compute_singleresidue_frustration dE E0 none i =
        (E0 - wMean (fun _ => 1 / 21) (dE i)) /
          wStd (fun _ => 1 / 21) (dE i) := by
  constructor
  · unfold compute_singleresidue_frustration
    simp only [Option.getD_some]
    rw [std_energy_eq_wStd]
    rfl
  · unfold compute_singleresidue_frustration
    simp only [Option.getD_none]
    rw [std_energy_eq_wStd, wStd_ones_eq_unif]
    have hm : mean_energy (fun _ => 1) dE i =
        wMean (fun _ => (1 : ℝ) / 21) (dE i) := by
      rw [show mean_energy (fun _ => (1 : ℝ)) dE i =
            wMean (fun _ => (1 : ℝ)) (dE i) from rfl,
          wMean_ones_eq_unif]
    rw [hm]

/-- Witness for `c4_singleresidue_frustration_zscore` at the zero matrix with
all-ones weights. -/
theorem c4_zscore_witness :
    (∀ _a : ℕ, (0 : ℝ) ≤ 1) ∧ (0 < ∑ _a in Finset.range 21, (1 : ℝ)) ∧
      (compute_singleresidue_frustration (fun _ _ => 0) 0
          (some fun _ => 1) 0 =
        (0 - wMean (fun _ => 1) ((fun _ _ => (0 : ℝ)) 0)) /
          wStd (fun _ => 1) ((fun _ _ => (0 : ℝ)) 0) ∧
      compute_singleresidue_frustration (fun _ _ => 0) 0 none 0 =
        (0 - wMean (fun _ => 1 / 21) ((fun _ _ => (0 : ℝ)) 0)) /
          wStd (fun _ => 1 / 21) ((fun _ _ => (0 : ℝ)) 0)) := by
  have hpos : (0 : ℝ) < ∑ _a in Finset.range 21, (1 : ℝ) := by
    norm_num [Finset.sum_const, Finset.card_range]
  exact ⟨fun _ => zero_le_one, hpos,
    c4_singleresidue_frustration_zscore (fun _ _ => 0) 0 (fun _ => 1) 0
      (fun _ => zero_le_one) hpos⟩

/-- Claim C5 counterexample: the mask the source builds is in general neither
symmetric nor zero on the diagonal.  With the asymmetric distance matrix
`d(0,1) = 1`, `d(1,0) = 3`, distance cutoff `2` and no sequence-separation
cutoff, the code yields `mask[0,1] = 1 ≠ 0 = mask[1,0]` and `mask[0,0] = 1`. -/
theorem c5_mask_counterexample :
    dcaMask (fun i j => if i = 0 ∧ j = 1 then (1 : ℚ)
        else if i = 1 ∧ j = 0 then 3 else 0) (some 2) none 0 1 = 1 ∧
      dcaMask (fun i j => if i = 0 ∧ j = 1 then (1 : ℚ)
        else if i = 1 ∧ j = 0 then 3 else 0) (some 2) none 1 0 = 0 ∧
      dcaMask (fun i j => if i = 0 ∧ j = 1 then (1 : ℚ)
        else if i = 1 ∧ j = 0 then 3 else 0) (some 2) none 0 0 = 1 := by
  refine ⟨?_, ?_, ?_⟩ <;> norm_num [dcaMask]

/-- Claim C5 (amended): for every *symmetric* distance matrix and any cutoff
combination, the mask is symmetric; and its diagonal is zero whenever a
nonnegative sequence-separation cutoff is supplied (with no such cutoff the
diagonal is produced by the distance criterion alone and is 1 when no cutoff
at all is given). -/
theorem c5_mask_symmetry (distM : ℕ → ℕ → ℚ) (dcut : Option ℚ)
    (scut : Option ℤ) (i j : ℕ) (hsym : ∀ a b, distM a b = distM b a) :
    dcaMask distM dcut scut i j = dcaMask distM dcut scut j i ∧
      (∀ c : ℤ, 0 ≤ c → dcaMask distM dcut (some c) i i = 0) := by
  constructor
  · unfold dcaMask
    rw [hsym i j]
    have habs : |(i : ℤ) - (j : ℤ)| = |(j : ℤ) - (i : ℤ)| := abs_sub_comm _ _
    rw [habs]
  · intro c hcge
    have h0 : ¬ c < (0 : ℤ) := not_lt.mpr hcge
    simp [dcaMask, sub_self, abs_zero, h0]

/-- Witness for `c5_mask_symmetry` at the all-zero distance matrix. -/
theorem c5_mask_symmetry_witness :
    dcaMask (fun _ _ => (0 : ℚ)) none none 0 1 =
        dcaMask (fun _ _ => (0 : ℚ)) none none 1 0 ∧
      ∀ c : ℤ, 0 ≤ c → dcaMask (fun _ _ => (0 : ℚ)) none (some c) 0 0 = 0 :=
  c5_mask_symmetry (fun _ _ => 0) none none 0 1 (fun _ _ => rfl)

/-- Claim C6: the decoy-fluctuation cache is keyed by kind alone, and an
explicit-sequence call *stores* its tensor under that key instead of
invalidating it.  Concretely: after `decoy_fluctuation(sequence="AC")` on an
object whose own sequence is `"AA"`, the next default-sequence call returns
the cached `"AC"` tensor — which differs from the fresh `"AA"` tensor (their
`[0][1]` entries are `-1` and `-2`) — so a call does *not* always return what
a fresh computation for the passed sequence would produce. -/
theorem c6_stale_cache_after_explicit_sequence :
    (Frustratometer.decoy_fluctuation computeDiag ['A', 'A'] ()
        ((Frustratometer.decoy_fluctuation computeDiag ['A', 'A'] () none
          (some ['A', 'C']) none).2) none none).1 = computeDiag ['A', 'C'] () ∧
      ((computeDiag ['A', 'C'] ()).getD 0 []).getD 1 0 = -1 ∧
      ((computeDiag ['A', 'A'] ()).getD 0 []).getD 1 0 = -2 := by
  refine ⟨rfl, ?_, ?_⟩
  · have h0 : seqFun ['A', 'C'] 0 = 1 := by decide
    have h1 : seqFun ['A', 'C'] 1 = 2 := by decide
    unfold computeDiag
    rw [show (['A', 'C'] : List Char).length = 2 from rfl]
    unfold singleresidueDecoyMatrix
    rw [getD_map_range _ _ 2 0 (by norm_num),
      getD_map_range _ _ 21 1 (by norm_num)]
    norm_num [decoyEnergyCore, List.range_succ, pmDiag, h0, h1]
  · have h0 : seqFun ['A', 'A'] 0 = 1 := by decide
    have h1 : seqFun ['A', 'A'] 1 = 1 := by decide
    unfold computeDiag
    rw [show (['A', 'A'] : List Char).length = 2 from rfl]
    unfold singleresidueDecoyMatrix
    rw [getD_map_range _ _ 2 0 (by norm_num),
      getD_map_range _ _ 21 1 (by norm_num)]
    norm_num [decoyEnergyCore, List.range_succ, pmDiag, h0, h1]

/-- Claim C7 counterexample: on a degenerate (zero-variance) decoy
distribution the code does not signal anything: `std_energy` is `0` and
`compute_singleresidue_frustration` still returns the unguarded quotient
`(native − mean) / 0` (IEEE: infinity, emitted silently) — its return type
carries no undefined marker and no error path exists in the source. -/
theorem c7_no_degenerate_guard :
    std_energy (fun _ => 1) (fun _ _ => (0 : ℝ)) 0 = 0 ∧
      compute_singleresidue_frustration (fun _ _ => (0 : ℝ)) 1 none 0 = 1 / 0 := by
  have hstd : std_energy (fun _ => (1 : ℝ)) (fun _ _ => 0) 0 = 0 := by
    simp [std_energy, mean_energy]
  refine ⟨hstd, ?_⟩
  unfold compute_singleresidue_frustration
  simp only [Option.getD_none]
  rw [hstd]
  have hm : mean_energy (fun _ => (1 : ℝ)) (fun _ _ => 0) 0 = 0 := by
    simp [mean_energy]
  rw [hm]
  norm_num

/-- Claim C7 (amended): whenever the weighted standard deviation at a position
is zero, the code performs the division anyway and returns the quotient by
zero — nothing is signaled to the caller. -/
theorem c7_division_performed_unguarded (dE : ℕ → ℕ → ℝ) (E0 : ℝ)
    (w : ℕ → ℝ) (i : ℕ) (hstd : std_energy w dE i = 0) :
    compute_singleresidue_frustration dE E0 (some w) i =
      (E0 - mean_energy w dE i) / 0 := by
  unfold compute_singleresidue_frustration
  simp only [Option.getD_some]
  rw [hstd]

/-- Witness for `c7_division_performed_unguarded` at a constant decoy row. -/
theorem c7_division_witness :
    std_energy (fun _ => (1 : ℝ)) (fun _ _ => 0) 0 = 0 ∧
      compute_singleresidue_frustration (fun _ _ => (0 : ℝ)) 1
          (some fun _ => 1) 0 =
        (1 - mean_energy (fun _ => 1) (fun _ _ => 0) 0) / 0 := by
  have hstd : std_energy (fun _ => (1 : ℝ)) (fun _ _ => 0) 0 = 0 := by
    simp [std_energy, mean_energy]
  exact ⟨hstd, c7_division_performed_unguarded (fun _ _ => 0) 1 (fun _ => 1) 0 hstd⟩

/-- Claim C8 counterexample: `compute_native_energy` does *not* fail fast on a
sequence whose length differs from the model dimension.  With `L = 2`, the
constant-1 model and the length-1 sequence `"A"` (no cutoffs), it silently
returns the energy of the truncated model, `-3/2`, instead of raising. -/
theorem c8_no_length_check :
    computeNativeEnergy ⟨2, fun _ _ => 1, fun _ _ _ _ => 1⟩ 2
      (fun _ _ => 0) none none ['A'] = some (-(3 / 2)) := by
  have hA : yIndex 'A' = 1 := by decide
  rw [computeNativeEnergy_eq]
  norm_num [nativeEnergyCore, dcaMask, List.range_succ, hA]

/-- Claim C8 (amended): there is no fail-fast length validation.  With no
distance cutoff, the computation succeeds exactly for the *nonempty* sequences
of length at most the model dimension `L`: a shorter (nonempty) sequence is
silently accepted and the truncated-model energy returned; the errors that do
occur — empty sequence (non-integer empty index array), sequence longer than
`L` (row index out of range) — arise during tensor indexing, not from any
prior length check. -/
theorem c8_succeeds_iff_short (pm : PottsModel) (distL : ℕ)
    (distM : ℕ → ℕ → ℚ) (scut : Option ℤ) (seq : List Char) :
    (computeNativeEnergy pm distL distM none scut seq).isSome ↔
      (1 ≤ seq.length ∧ seq.length ≤ pm.L) := by
  rw [computeNativeEnergy_eq]
  by_cases h : 1 ≤ seq.length ∧ seq.length ≤ pm.L
  · rw [if_pos ⟨h.1, h.2, Or.inl rfl⟩]
    simp [h.1, h.2]
  · rw [if_neg fun hcon => h ⟨hcon.1, hcon.2.1⟩]
    simp [h]

/-- Claim C9: `native_energy` is not a pure function of its arguments — the
cached value is returned regardless of the gap flags of the current call.
With the gap sequence `"-"` and unit fields, a first call with both flags
false caches `-1`; a second call with `ignore_fields_of_gaps = True` returns
that cached `-1`, while the flag-aware computation on the same arguments
yields `0`. -/
theorem c9_cached_energy_ignores_flags :
    (Frustratometer.native_energy computeGap ['-']
        ((Frustratometer.native_energy computeGap ['-'] none none
          false false).2) none false true).1 = -1 ∧
      computeGap ['-'] false true = 0 := by
  have hff : computeGap ['-'] false false = -1 := by
    unfold computeGap specNativeEnergy
    rw [show (['-'] : List Char).length = 1 from rfl]
    simp only [Finset.sum_range_one]
    rw [if_neg (by decide), if_neg (by decide)]
    norm_num [pmGap]
  have htf : computeGap ['-'] false true = 0 := by
    unfold computeGap specNativeEnergy
    rw [show (['-'] : List Char).length = 1 from rfl]
    simp only [Finset.sum_range_one]
    rw [if_pos (by decide), if_neg (by decide)]
    norm_num [pmGap]
  refine ⟨?_, htf⟩
  have hfst : (Frustratometer.native_energy computeGap ['-'] none none
      false false).2 = some (-1) := by
    rw [show (Frustratometer.native_energy computeGap ['-'] none none
        false false).2 = some (computeGap ['-'] false false) from rfl, hff]
  rw [hfst]
  simp [Frustratometer.native_energy]

/-- Claim C10: a character outside the alphabet is mapped by `str.find` to
`-1`, which numpy's negative indexing resolves to the last symbol index 20
(`Y`); hence no error is raised and both energy functions return exactly the
energies of the sequence with every unknown character read as `Y`. -/
theorem c10_unknown_chars_read_as_Y (pm : PottsModel) (distL : ℕ)
    (distM : ℕ → ℕ → ℚ) (dcut : Option ℚ) (scut : Option ℤ)
    (seq : List Char) (c : Char) (hc : c ∉ AAlist) :
    pyFind c = -1 ∧ resolveIndex 21 (pyFind c) = some 20 ∧
      computeNativeEnergy pm distL distM dcut scut seq =
        computeNativeEnergy pm distL distM dcut scut (seq.map substY) ∧
      computeSingleresidueDecoyEnergy pm distL distM dcut scut seq =
        computeSingleresidueDecoyEnergy pm distL distM dcut scut
          (seq.map substY) := by
  have h1 : pyFind c = -1 := findIndexAux_not_mem AAlist c 0 hc
  refine ⟨h1, ?_, ?_, ?_⟩
  · rw [h1]; decide
  · rw [computeNativeEnergy_eq, computeNativeEnergy_eq]
    simp only [List.length_map, map_yIndex_substY]
  · rw [computeSingleresidueDecoyEnergy_eq, computeSingleresidueDecoyEnergy_eq]
    simp only [List.length_map, map_yIndex_substY]

/-- Witness for `c10_unknown_chars_read_as_Y` at the unknown character `X`. -/
theorem c10_unknown_chars_witness :
    'X' ∉ AAlist ∧
      (pyFind 'X' = -1 ∧ resolveIndex 21 (pyFind 'X') = some 20 ∧
        computeNativeEnergy ⟨1, fun _ _ => 0, fun _ _ _ _ => 0⟩ 1
            (fun _ _ => 0) none none ['X'] =
          computeNativeEnergy ⟨1, fun _ _ => 0, fun _ _ _ _ => 0⟩ 1
            (fun _ _ => 0) none none (['X'].map substY) ∧
        computeSingleresidueDecoyEnergy ⟨1, fun _ _ => 0, fun _ _ _ _ => 0⟩ 1
            (fun _ _ => 0) none none ['X'] =
          computeSingleresidueDecoyEnergy ⟨1, fun _ _ => 0, fun _ _ _ _ => 0⟩ 1
            (fun _ _ => 0) none none (['X'].map substY)) :=
  ⟨by decide, c10_unknown_chars_read_as_Y ⟨1, fun _ _ => 0, fun _ _ _ _ => 0⟩ 1
    (fun _ _ => 0) none none ['X'] 'X' (by decide)⟩

/-- Witness instance of `c8_succeeds_iff_short` at a length-1 sequence and a
dimension-2 model. -/
theorem c8_succeeds_iff_short_witness :
    (computeNativeEnergy ⟨2, fun _ _ => 1, fun _ _ _ _ => 1⟩ 2 (fun _ _ => 0)
        none none ['A']).isSome ↔
      (1 ≤ (['A'] : List Char).length ∧ (['A'] : List Char).length ≤ 2) :=
  c8_succeeds_iff_short ⟨2, fun _ _ => 1, fun _ _ _ _ => 1⟩ 2 (fun _ _ => 0)
    none ['A']
